import Mathlib

/-!
Verification development for the `javascript-masks` repository
(`src/phone-mask.js`, `src/money-mask.js`).

The phone-number template engine is embedded shallowly:

* a mask string is a `List Char`; the placeholder character is the
  constant `'#'` (`parseMask` in the source always sets
  `placeholderChar = '#'`);
* the regular expression built by `parseMask` (`'^'`, then `(\d?)` for
  each placeholder and the escaped literal for every other character,
  then `'$'`) is embedded as a list of atoms (`RAtom`) together with its
  anchored matching semantics `rmatch` (regex-escaping in
  `escapeRegExp` only affects the regex source text, not which strings
  the literal atom accepts);
* the rendering loop inside `handleInput` / `setValue`, the best-match
  selection loop, the two cursor maps, the backspace branch of
  `handleKeyDown` and `validateInput` are each translated into a
  structurally recursive function, with the loop accumulators of the
  JavaScript turned into explicit arguments.
-/

/-- One atom of the compiled mask pattern: `digitOpt` is the `(\d?)`
group generated for a placeholder, `lit c` the escaped literal
character `c`. -/
inductive RAtom where
  | digitOpt : RAtom
  | lit : Char → RAtom
deriving DecidableEq, Repr

/-- The regex body built by the `parseMask` loop: `(\d?)` for `'#'`,
the (escaped) literal atom for every other character.  The `'^'`/`'$'`
anchors are part of the matching semantics `rmatch`, which always
consumes the whole string. -/
def regexOfMask (mask : List Char) : List RAtom :=
  mask.map (fun c => if c = '#' then RAtom.digitOpt else RAtom.lit c)

/-- `digitCount` as accumulated by the `parseMask` loop: one per `'#'`. -/
def countPlaceholders : List Char → Nat
  | [] => 0
  | c :: rest => (if c = '#' then 1 else 0) + countPlaceholders rest

/-- Number of literal (non-placeholder) characters of a mask. -/
def litCount : List Char → Nat
  | [] => 0
  | c :: rest => (if c = '#' then 0 else 1) + litCount rest

/-- The `placeholders` array of `parseMask`: for every `'#'` the pair
`(index, charIndex)` where `index` is its position in the mask and
`charIndex` counts the placeholders before it.  `i` and `ci` are the
loop variables `i` and `charIndex`. -/
def placeholdersGo : List Char → Nat → Nat → List (Nat × Nat)
  | [], _, _ => []
  | c :: rest, i, ci =>
    if c = '#' then (i, ci) :: placeholdersGo rest (i + 1) (ci + 1)
    else placeholdersGo rest (i + 1) ci

/-- The record returned by `parseMask` (field names follow the source). -/
structure MaskData where
  regex : List RAtom
  placeholders : List (Nat × Nat)
  mask : List Char
  placeholderChar : Char
  digitCount : Nat
deriving DecidableEq, Repr

/-- `parseMask` (src/phone-mask.js:59-85): single pass over the mask
building the regex atoms, the placeholder table and the digit count. -/
def parseMask (mask : List Char) : MaskData :=
  { regex := regexOfMask mask
    placeholders := placeholdersGo mask 0 0
    mask := mask
    placeholderChar := '#'
    digitCount := countPlaceholders mask }

/-- Anchored matching semantics of the compiled pattern: the string is
split into one piece per atom; a literal atom consumes exactly its
character, a `(\d?)` atom consumes one decimal digit or nothing. -/
def rmatch : List RAtom → List Char → Bool
  | [], [] => true
  | [], _ :: _ => false
  | RAtom.lit _ :: _, [] => false
  | RAtom.lit c :: ps, d :: ds => if c = d then rmatch ps ds else false
  | RAtom.digitOpt :: ps, [] => rmatch ps []
  | RAtom.digitOpt :: ps, d :: ds =>
      rmatch ps (d :: ds) || (d.isDigit && rmatch ps ds)

/-- The rendering loop of `handleInput` (src/phone-mask.js:233-239) and
`setValue` (src/phone-mask.js:297-303): walk the mask; at a placeholder
append `digits[digitIndex++]` when `digitIndex < digits.length` and the
empty string otherwise (the walk continues either way); at a literal
append the mask character.  `digitIndex` is the loop accumulator. -/
def renderGo (digits : List Char) : List Char → Nat → List Char
  | [], _ => []
  | c :: rest, digitIndex =>
    if c = '#' then
      match digits.get? digitIndex with
      | some d => d :: renderGo digits rest (digitIndex + 1)
      | none => renderGo digits rest digitIndex
    else c :: renderGo digits rest digitIndex

/-- Rendering a digit sequence into a parsed mask (the inner loop of
`handleInput`/`setValue`). -/
def renderMask (m : MaskData) (digits : List Char) : List Char :=
  renderGo digits m.mask 0

/-- Structural description of the same walk: each of the first
`digits.length` placeholders is replaced by the corresponding digit,
every later placeholder is dropped, every literal is kept. -/
def fillTemplate : List Char → List Char → List Char
  | [], _ => []
  | c :: rest, ds =>
    if c = '#' then
      match ds with
      | [] => fillTemplate rest []
      | d :: tl => d :: fillTemplate rest tl
    else c :: fillTemplate rest ds

/-- `Math.abs(digitCount - digits.length)` over natural numbers. -/
def natAbsDiff (a b : Nat) : Nat := max a b - min a b

/-- The candidate loop of `handleInput` (src/phone-mask.js:228-249) and
`setValue`: render every candidate, test the render against the
candidate's own regex, and keep the first candidate whose
`abs(digitCount - digits.length)` is strictly smaller than the best so
far.  The accumulator `best` is `none` while `bestMatchIndex = -1`
(`bestMatchDiff = Infinity`), otherwise
`some (bestMatchIndex, bestMatchDiff, bestFormatted)`. -/
def selectBestGo (ds : List Char) :
    List MaskData → Nat → Option (Nat × Nat × List Char) →
      Option (Nat × Nat × List Char)
  | [], _, best => best
  | m :: rest, idx, best =>
    if rmatch m.regex (renderMask m ds) = true then
      match best with
      | none =>
          selectBestGo ds rest (idx + 1)
            (some (idx, natAbsDiff m.digitCount ds.length, renderMask m ds))
      | some (bi, bd, bf) =>
          if natAbsDiff m.digitCount ds.length < bd then
            selectBestGo ds rest (idx + 1)
              (some (idx, natAbsDiff m.digitCount ds.length, renderMask m ds))
          else selectBestGo ds rest (idx + 1) (some (bi, bd, bf))
    else selectBestGo ds rest (idx + 1) best

/-- `handleInput` (src/phone-mask.js:219-261), reduced to its value
transformation: strip non-digits from the field value, run the
selection loop, and return the new `activeMaskIndex` together with the
new field text (`bestFormatted` after the re-test of
src/phone-mask.js:253, the bare digit string otherwise). -/
def handleInputValue (list : List MaskData) (value : List Char) :
    Int × List Char :=
  let digits := value.filter Char.isDigit
  match selectBestGo digits list 0 none with
  | none => (-1, digits)
  | some (bi, _, bf) =>
    match list.get? bi with
    | some m => if rmatch m.regex bf = true then ((bi : Int), bf)
                else ((bi : Int), digits)
    | none => ((bi : Int), digits)

/-- `setValue` (src/phone-mask.js:277-324): `none` models
`null`/`undefined`; the empty string and `none` clear the field and the
active mask; any other value goes through the same render-and-select
pass as `handleInput`. -/
def setValueResult (list : List MaskData) (v : Option (List Char)) :
    Int × List Char :=
  match v with
  | none => (-1, [])
  | some s =>
    if s = [] then (-1, [])
    else
      let sv := s.filter Char.isDigit
      match selectBestGo sv list 0 none with
      | none => (-1, sv)
      | some (bi, _, bf) =>
        match list.get? bi with
        | some m => if rmatch m.regex bf = true then ((bi : Int), bf)
                    else ((bi : Int), sv)
        | none => ((bi : Int), sv)

/-- `getCursorPosInUnmaskedValue` (src/phone-mask.js:175-183) with an
active mask: count the placeholders at mask indices strictly below the
formatted cursor position (`mask[i]` beyond the mask length is
`undefined` in JavaScript and never equals `'#'`, hence the `[]`
case). -/
def getCursorPosInUnmaskedValue : List Char → Nat → Nat
  | [], _ => 0
  | _ :: _, 0 => 0
  | c :: rest, fp + 1 =>
      (if c = '#' then 1 else 0) + getCursorPosInUnmaskedValue rest fp

/-- The `for` loop of `setCursorPositionInFormatted`
(src/phone-mask.js:195-204): scan the mask counting placeholders; break
with the current index at the `u`-th placeholder; if the loop runs out,
the position is the mask length.  The loop counter `unmaskedCount`
counting up to `u` is turned into the remaining count `u`. -/
def fcpLoop : List Char → Nat → Nat
  | [], _ => 0
  | c :: rest, u =>
    if c = '#' then
      if u = 0 then 0 else fcpLoop rest (u - 1) + 1
    else fcpLoop rest u + 1

/-- The trailing `while` loop of `setCursorPositionInFormatted`
(src/phone-mask.js:206-208): advance past literals until a placeholder
or the end of the mask. -/
def skipLiteralsGo : List Char → Nat
  | [] => 0
  | c :: rest => if c = '#' then 0 else skipLiteralsGo rest + 1

/-- `setCursorPositionInFormatted` (src/phone-mask.js:185-210) with an
active mask, reduced to the position it computes: the `for` loop
followed by the literal-skipping `while` loop. -/
def setCursorPositionInFormatted (mask : List Char) (u : Nat) : Nat :=
  fcpLoop mask u + skipLiteralsGo (mask.drop (fcpLoop mask u))

/-- The backward seek of the backspace branch
(src/phone-mask.js:143-146): starting at `p`, walk left until a
placeholder is found (`some`) or the front of the mask is passed
(`none`, the JavaScript `prevDigitPos = -1`).  Positions beyond the
mask length compare against `undefined` and keep seeking. -/
def seekPrevPh (mask : List Char) : Nat → Option Nat
  | 0 => if mask.get? 0 = some '#' then some 0 else none
  | p + 1 =>
    if mask.get? (p + 1) = some '#' then some (p + 1)
    else seekPrevPh mask p

/-- The no-selection backspace branch of `handleKeyDown`
(src/phone-mask.js:142-150): from `start - 1` seek the previous
placeholder; if one is found at `p`, delete the unmasked character at
`getCursorPosInUnmaskedValue(p)` (the JavaScript
`slice(0, cp) + slice(cp + 1)`) and put the cursor there; otherwise
leave the digits unchanged. -/
def handleKeyDownBackspace (m : MaskData) (start : Nat)
    (unmasked : List Char) : List Char × Nat :=
  match start with
  | 0 => (unmasked, getCursorPosInUnmaskedValue m.mask 0)
  | s + 1 =>
    match seekPrevPh m.mask s with
    | none => (unmasked, getCursorPosInUnmaskedValue m.mask (s + 1))
    | some p =>
      let cp := getCursorPosInUnmaskedValue m.mask p
      (unmasked.take cp ++ unmasked.drop (cp + 1), cp)

/-- `validateInput` (src/phone-mask.js:337-353) with an active mask:
the field is valid iff the displayed value matches the mask's regex and
its digit count equals the mask's `digitCount` (`false` means the
localized error message is installed via `setCustomValidity`). -/
def validateInputResult (m : MaskData) (value : List Char) : Bool :=
  rmatch m.regex value && ((value.filter Char.isDigit).length == m.digitCount)

/-- Per-position description of a full-length match, following the
spec: a literal position must equal the literal character, a
placeholder position must hold one digit. -/
def fullMatchSpec : List Char → List Char → Bool
  | [], [] => true
  | c :: ts, d :: ds =>
      (if c = '#' then d.isDigit else c = d) && fullMatchSpec ts ds
  | _, _ => false

/-- Structural restatement of the selection loop used to reason about
`selectBestGo`: first candidate whose diff is minimal among the
matching candidates, position-indexed from the front. -/
def specSelect (ds : List Char) : List MaskData → Option (Nat × Nat × List Char)
  | [] => none
  | m :: rest =>
    if rmatch m.regex (renderMask m ds) = true then
      match specSelect ds rest with
      | none => some (0, natAbsDiff m.digitCount ds.length, renderMask m ds)
      | some (i, bd, bf) =>
        if natAbsDiff m.digitCount ds.length ≤ bd then
          some (0, natAbsDiff m.digitCount ds.length, renderMask m ds)
        else some (i + 1, bd, bf)
    else
      match specSelect ds rest with
      | none => none
      | some (i, bd, bf) => some (i + 1, bd, bf)

/-- Shapes a mask-class constructor argument can take:
a selector string that resolves to an element, one that does not, a
direct `HTMLElement`, or anything else. -/
inductive CtorArg where
  | selectorFound : CtorArg
  | selectorMissing : CtorArg
  | htmlElement : CtorArg
  | invalid : CtorArg
deriving DecidableEq, Repr

/-- Outcome of running a constructor body. -/
inductive CtorOutcome where
  | initialized : CtorOutcome
  | threw : CtorOutcome
  | ignoredSilently : CtorOutcome
deriving DecidableEq, Repr

/-- The argument checks of the `PhoneNumberMask` constructor
(src/phone-mask.js:21-32): a non-string non-element argument throws
"Invalid input element or selector", a selector that resolves to no
element throws "Input element not found". -/
def phoneCtorOutcome : CtorArg → CtorOutcome
  | CtorArg.selectorFound => CtorOutcome.initialized
  | CtorArg.selectorMissing => CtorOutcome.threw
  | CtorArg.htmlElement => CtorOutcome.initialized
  | CtorArg.invalid => CtorOutcome.threw

/-- The argument checks of the `MoneyMask` constructor
(src/money-mask.js:39-53): a non-string non-element argument is ignored
with a bare `return`, and so is a selector that resolves to no element
("If no element is found, ignore"); nothing is thrown. -/
def moneyCtorOutcome : CtorArg → CtorOutcome
  | CtorArg.selectorFound => CtorOutcome.initialized
  | CtorArg.selectorMissing => CtorOutcome.ignoredSilently
  | CtorArg.htmlElement => CtorOutcome.initialized
  | CtorArg.invalid => CtorOutcome.ignoredSilently

/-- The default mask of the repository, `"(##) #####-####"`. -/
def maskBR11 : List Char := ("(##) #####-####").toList

/-- The ten-digit companion mask `"(##) ####-####"`. -/
def maskBR10 : List Char := ("(##) ####-####").toList

/-! ## Helper lemmas about rendering -/

/-- `List.drop` at an index holding an element peels that element off. -/
theorem drop_eq_cons_of_get (ds : List Char) :
    ∀ (i : Nat) (d : Char), ds.get? i = some d →
      ds.drop i = d :: ds.drop (i + 1) := by
  induction ds with
  | nil => intro i d h; simp [List.get?] at h
  | cons a tl ih =>
    intro i d h
    cases i with
    | zero => simp [List.get?] at h; simp [h]
    | succ j => simp only [List.get?] at h; simpa using ih j d h

/-- `List.drop` past the end is empty. -/
theorem drop_eq_nil_of_get_none (ds : List Char) (i : Nat)
    (h : ds.get? i = none) : ds.drop i = [] := by
  have hl : ds.length ≤ i := List.get?_eq_none.mp h
  exact List.drop_eq_nil_of_le hl

/-- The index-based rendering loop of the source equals the structural
walk `fillTemplate` on the digits not yet consumed. -/
theorem renderGo_eq_fillTemplate (ds : List Char) :
    ∀ (mask : List Char) (i : Nat),
      renderGo ds mask i = fillTemplate mask (ds.drop i) := by
  intro mask
  induction mask with
  | nil => intro i; rfl
  | cons c rest ih =>
    intro i
    by_cases hc : c = '#'
    · cases hg : ds.get? i with
      | some d =>
        rw [drop_eq_cons_of_get ds i d hg]
        simp only [renderGo, fillTemplate, hc, if_pos, hg]
        rw [ih (i + 1)]
      | none =>
        rw [drop_eq_nil_of_get_none ds i hg]
        simp only [renderGo, fillTemplate, hc, if_pos, hg]
        rw [ih i, drop_eq_nil_of_get_none ds i hg]
    · simp only [renderGo, fillTemplate, hc, if_neg, ite_false]
      rw [ih i]

/-- Rendering a parsed mask is the structural walk over the digits. -/
theorem renderMask_parseMask (mask ds : List Char) :
    renderMask (parseMask mask) ds = fillTemplate mask ds := by
  unfold renderMask parseMask
  simpa using renderGo_eq_fillTemplate ds mask 0

/-- Length of the rendered string: all literals plus one character per
filled placeholder. -/
theorem fillTemplate_length :
    ∀ (mask ds : List Char),
      (fillTemplate mask ds).length =
        litCount mask + min ds.length (countPlaceholders mask) := by
  intro mask
  induction mask with
  | nil => intro ds; simp [fillTemplate, litCount, countPlaceholders]
  | cons c rest ih =>
    intro ds
    by_cases hc : c = '#'
    · cases ds with
      | nil =>
        simp only [fillTemplate, hc, if_pos, litCount, countPlaceholders]
        rw [ih []]
        simp
      | cons d tl =>
        simp only [fillTemplate, hc, if_pos, litCount, countPlaceholders,
          List.length_cons]
        rw [ih tl]
        have := Nat.succ_min_succ tl.length (countPlaceholders rest)
        omega
    · simp only [fillTemplate, hc, ite_false, litCount, countPlaceholders,
        List.length_cons]
      rw [ih ds]
      omega

/-- The rendered string always satisfies the mask's own regex: every
literal is in place and every placeholder holds a digit or nothing. -/
theorem rmatch_fillTemplate :
    ∀ (mask ds : List Char), (∀ c ∈ ds, c.isDigit = true) →
      rmatch (regexOfMask mask) (fillTemplate mask ds) = true := by
  intro mask
  induction mask with
  | nil => intro ds _; rfl
  | cons c rest ih =>
    intro ds hds
    by_cases hc : c = '#'
    · cases ds with
      | nil =>
        simp only [regexOfMask, List.map_cons, fillTemplate, hc, if_pos]
        cases hfill : fillTemplate rest [] with
        | nil =>
          have h := ih [] (by intro c hc; cases hc)
          rw [hfill] at h
          simpa [rmatch, regexOfMask] using h
        | cons e etl =>
          have h := ih [] (by intro c hc; cases hc)
          rw [hfill] at h
          simp only [rmatch, regexOfMask] at h ⊢
          rw [h]
          simp
      | cons d tl =>
        have hd : d.isDigit = true := hds d (by simp)
        have h := ih tl (by intro x hx; exact hds x (by simp [hx]))
        simp only [regexOfMask, List.map_cons, fillTemplate, hc, if_pos,
          rmatch]
        simp only [regexOfMask] at h
        rw [hd, h]
        simp
    · have h := ih ds hds
      simp only [regexOfMask, List.map_cons, fillTemplate, hc, ite_false,
        rmatch, if_pos]
      simpa [regexOfMask] using h

/-! ## Helper lemmas about the matcher -/

/-- Every atom consumes at most one character. -/
theorem rmatch_length_le :
    ∀ (ps : List RAtom) (s : List Char), rmatch ps s = true →
      s.length ≤ ps.length := by
  intro ps
  induction ps with
  | nil =>
    intro s h
    cases s with
    | nil => simp
    | cons d ds => simp [rmatch] at h
  | cons a ps ih =>
    intro s h
    cases a with
    | lit c =>
      cases s with
      | nil => simp
      | cons d ds =>
        simp only [rmatch] at h
        by_cases hcd : c = d
        · rw [if_pos hcd] at h
          have := ih ds h
          simpa using Nat.succ_le_succ this
        · rw [if_neg hcd] at h; cases h
    | digitOpt =>
      cases s with
      | nil => simp
      | cons d ds =>
        simp only [rmatch, Bool.or_eq_true, Bool.and_eq_true] at h
        cases h with
        | inl h1 =>
          have := ih (d :: ds) h1
          simpa using Nat.le_succ_of_le this
        | inr h2 =>
          have := ih ds h2.2
          simpa using Nat.succ_le_succ this

/-- Every literal atom consumes exactly one character, so a match is at
least as long as the number of literals. -/
theorem rmatch_length_ge :
    ∀ (mask : List Char) (s : List Char),
      rmatch (regexOfMask mask) s = true → litCount mask ≤ s.length := by
  intro mask
  induction mask with
  | nil =>
    intro s h
    simp [litCount]
  | cons c rest ih =>
    intro s h
    by_cases hc : c = '#'
    · simp only [regexOfMask, List.map_cons, hc, if_pos] at h
      cases s with
      | nil =>
        simp only [rmatch] at h
        have := ih [] (by simpa [regexOfMask] using h)
        simpa [litCount, hc] using this
      | cons d ds =>
        simp only [rmatch, Bool.or_eq_true, Bool.and_eq_true] at h
        cases h with
        | inl h1 =>
          have := ih (d :: ds) (by simpa [regexOfMask] using h1)
          simpa [litCount, hc] using this
        | inr h2 =>
          have := ih ds (by simpa [regexOfMask] using h2.2)
          simp only [litCount, hc, if_pos, List.length_cons]
          omega
    · simp only [regexOfMask, List.map_cons, hc, ite_false] at h
      cases s with
      | nil => simp [rmatch] at h
      | cons d ds =>
        simp only [rmatch] at h
        by_cases hcd : c = d
        · rw [if_pos hcd] at h
          have := ih ds (by simpa [regexOfMask] using h)
          simp only [litCount, hc, ite_false, List.length_cons]
          omega
        · rw [if_neg hcd] at h; cases h

/-- A match never exceeds the template length. -/
theorem rmatch_length_le_mask (mask : List Char) (s : List Char)
    (h : rmatch (regexOfMask mask) s = true) : s.length ≤ mask.length := by
  have := rmatch_length_le (regexOfMask mask) s h
  simpa [regexOfMask] using this

/-- At full template length, a match forces the per-position reading:
each literal position carries the literal, each placeholder position a
digit. -/
theorem rmatch_full_iff :
    ∀ (mask s : List Char), s.length = mask.length →
      (rmatch (regexOfMask mask) s = true ↔ fullMatchSpec mask s = true) := by
  intro mask
  induction mask with
  | nil =>
    intro s hlen
    have : s = [] := List.eq_nil_of_length_eq_zero hlen
    subst this
    simp [regexOfMask, rmatch, fullMatchSpec]
  | cons c rest ih =>
    intro s hlen
    cases s with
    | nil => simp at hlen
    | cons d ds =>
      have hlen' : ds.length = rest.length := by simpa using hlen
      by_cases hc : c = '#'
      · simp only [regexOfMask, List.map_cons, hc, if_pos, rmatch,
          fullMatchSpec, Bool.or_eq_true, Bool.and_eq_true]
        constructor
        · intro h
          cases h with
          | inl h1 =>
            exfalso
            have := rmatch_length_le _ _ h1
            simp [regexOfMask] at this
            omega
          | inr h2 =>
            refine ⟨h2.1, ?_⟩
            exact (ih ds hlen').mp (by simpa [regexOfMask] using h2.2)
        · intro h
          right
          refine ⟨h.1, ?_⟩
          simpa [regexOfMask] using (ih ds hlen').mpr h.2
      · simp only [regexOfMask, List.map_cons, hc, ite_false, rmatch,
          fullMatchSpec]
        by_cases hcd : c = d
        · rw [if_pos hcd]
          simp only [hcd, if_pos]
          constructor
          · intro h
            have := (ih ds hlen').mp (by simpa [regexOfMask] using h)
            simp [this]
          · intro h
            simp only [Bool.and_eq_true] at h
            simpa [regexOfMask] using (ih ds hlen').mpr h.2
        · rw [if_neg hcd]
          simp [hcd]

/-! ## Helper lemmas about the cursor maps -/

/-- The `for` loop of `setCursorPositionInFormatted` composed with
`getCursorPosInUnmaskedValue` clamps the unmasked offset to the
placeholder count. -/
theorem ucp_fcpLoop :
    ∀ (mask : List Char) (u : Nat),
      getCursorPosInUnmaskedValue mask (fcpLoop mask u) =
        min u (countPlaceholders mask) := by
  intro mask
  induction mask with
  | nil => intro u; simp [getCursorPosInUnmaskedValue, fcpLoop, countPlaceholders]
  | cons c rest ih =>
    intro u
    by_cases hc : c = '#'
    · cases u with
      | zero =>
        simp [fcpLoop, hc, getCursorPosInUnmaskedValue]
      | succ v =>
        simp only [fcpLoop, hc, if_pos, Nat.succ_ne_zero, ite_false,
          Nat.succ_sub_one, getCursorPosInUnmaskedValue, countPlaceholders]
        rw [ih v]
        have := Nat.succ_min_succ v (countPlaceholders rest)
        omega
    · simp only [fcpLoop, hc, ite_false, getCursorPosInUnmaskedValue,
        countPlaceholders]
      rw [ih u]
      omega

/-- The trailing `while` loop of `setCursorPositionInFormatted` never
moves: the `for` loop stops either on a placeholder or at the end of
the mask. -/
theorem skipLiteralsGo_fcpLoop :
    ∀ (mask : List Char) (u : Nat),
      skipLiteralsGo (mask.drop (fcpLoop mask u)) = 0 := by
  intro mask
  induction mask with
  | nil => intro u; simp [fcpLoop, skipLiteralsGo]
  | cons c rest ih =>
    intro u
    by_cases hc : c = '#'
    · cases u with
      | zero => simp [fcpLoop, hc, skipLiteralsGo]
      | succ v =>
        simp only [fcpLoop, hc, if_pos, Nat.succ_ne_zero, ite_false,
          Nat.succ_sub_one, List.drop_succ_cons]
        exact ih v
    · simp only [fcpLoop, hc, ite_false, List.drop_succ_cons]
      exact ih u

/-- `setCursorPositionInFormatted` is just the `for` loop position. -/
theorem setCursorPositionInFormatted_eq (mask : List Char) (u : Nat) :
    setCursorPositionInFormatted mask u = fcpLoop mask u := by
  unfold setCursorPositionInFormatted
  rw [skipLiteralsGo_fcpLoop]
  omega

/-! ## Helper lemmas about the backspace seek -/

/-- The backward seek returns the nearest placeholder position at or
before its starting point. -/
theorem seekPrevPh_spec (mask : List Char) :
    ∀ (s p : Nat), seekPrevPh mask s = some p →
      mask.get? p = some '#' ∧ p ≤ s ∧
        ∀ q, p < q → q ≤ s → mask.get? q ≠ some '#' := by
  intro s
  induction s with
  | zero =>
    intro p h
    simp only [seekPrevPh] at h
    by_cases h0 : mask.get? 0 = some '#'
    · rw [if_pos h0] at h
      cases h
      exact ⟨h0, Nat.le_refl 0, by intro q hq hq2 _; omega⟩
    · rw [if_neg h0] at h; cases h
  | succ s ih =>
    intro p h
    simp only [seekPrevPh] at h
    by_cases hs : mask.get? (s + 1) = some '#'
    · rw [if_pos hs] at h
      cases h
      exact ⟨hs, Nat.le_refl _, by intro q hq hq2 _; omega⟩
    · rw [if_neg hs] at h
      obtain ⟨h1, h2, h3⟩ := ih p h
      refine ⟨h1, Nat.le_succ_of_le h2, ?_⟩
      intro q hq hq2
      by_cases hqs : q ≤ s
      · exact h3 q hq hqs
      · have : q = s + 1 := by omega
        rw [this]
        exact hs

/-- Every placeholder position appears in the `placeholders` table with
its digit index (`charIndex`) equal to the number of placeholders
before it. -/
theorem placeholdersGo_mem :
    ∀ (mask : List Char) (p i ci : Nat), mask.get? p = some '#' →
      (i + p, ci + getCursorPosInUnmaskedValue mask p) ∈
        placeholdersGo mask i ci := by
  intro mask
  induction mask with
  | nil => intro p i ci h; simp [List.get?] at h
  | cons c rest ih =>
    intro p i ci h
    cases p with
    | zero =>
      simp only [List.get?] at h
      have hc : c = '#' := by injection h
      simp [placeholdersGo, hc, getCursorPosInUnmaskedValue]
    | succ q =>
      simp only [List.get?] at h
      by_cases hc : c = '#'
      · simp only [placeholdersGo, hc, if_pos, getCursorPosInUnmaskedValue]
        have := ih q (i + 1) (ci + 1) h
        have e1 : i + (q + 1) = i + 1 + q := by omega
        have e2 : ci + (1 + getCursorPosInUnmaskedValue rest q) =
            ci + 1 + getCursorPosInUnmaskedValue rest q := by omega
        rw [e1, e2]
        exact List.mem_cons_of_mem _ this
      · simp only [placeholdersGo, hc, ite_false, getCursorPosInUnmaskedValue]
        have := ih q (i + 1) ci h
        have e1 : i + (q + 1) = i + 1 + q := by omega
        rw [e1]
        simpa using this

/-! ## Helper lemmas about the selection loop -/

/-- The selection loop with a non-empty accumulator: the result is the
accumulator unless some later candidate has a strictly smaller diff, in
which case the first such minimizer (relative index shifted by `idx`)
wins. -/
theorem selectBestGo_acc (ds : List Char) :
    ∀ (rest : List MaskData) (idx bi bd : Nat) (bf : List Char),
      selectBestGo ds rest idx (some (bi, bd, bf)) =
        (match specSelect ds rest with
         | none => some (bi, bd, bf)
         | some (i, d, f) =>
             if d < bd then some (idx + i, d, f) else some (bi, bd, bf)) := by
  intro rest
  induction rest with
  | nil => intro idx bi bd bf; simp [selectBestGo, specSelect]
  | cons m rest ih =>
    intro idx bi bd bf
    by_cases hr : rmatch m.regex (renderMask m ds) = true
    · simp only [selectBestGo, specSelect]
      rw [if_pos hr, if_pos hr]
      by_cases hd : natAbsDiff m.digitCount ds.length < bd
      · rw [if_pos hd, ih]
        cases hs : specSelect ds rest with
        | none => simp [hs, hd]
        | some t =>
          obtain ⟨i, d, f⟩ := t
          by_cases hdd : natAbsDiff m.digitCount ds.length ≤ d
          · have hnd : ¬ d < natAbsDiff m.digitCount ds.length := by omega
            simp [hdd, hd, hnd]
          · have hlt : d < natAbsDiff m.digitCount ds.length := by omega
            have hdb : d < bd := by omega
            have e : idx + (i + 1) = idx + 1 + i := by omega
            simp [hdd, hlt, hdb, e]
      · rw [if_neg hd, ih]
        cases hs : specSelect ds rest with
        | none =>
          have : ¬ natAbsDiff m.digitCount ds.length < bd := hd
          simp [hs, this]
        | some t =>
          obtain ⟨i, d, f⟩ := t
          by_cases hdd : natAbsDiff m.digitCount ds.length ≤ d
          · have h1 : ¬ d < bd := by omega
            have h2 : ¬ natAbsDiff m.digitCount ds.length < bd := hd
            simp [hdd, h1, h2]
          · have e : idx + (i + 1) = idx + 1 + i := by omega
            by_cases hdb : d < bd
            · simp [hdd, hdb, e]
            · simp [hdd, hdb]
    · simp only [selectBestGo, specSelect]
      rw [if_neg hr, if_neg hr, ih]
      cases hs : specSelect ds rest with
      | none => simp
      | some t =>
        obtain ⟨i, d, f⟩ := t
        have e : idx + (i + 1) = idx + 1 + i := by omega
        by_cases hdb : d < bd
        · simp [hdb, e]
        · simp [hdb]

/-- The selection loop from the empty accumulator computes
`specSelect`, with indices shifted by the starting index. -/
theorem selectBestGo_none (ds : List Char) :
    ∀ (rest : List MaskData) (idx : Nat),
      selectBestGo ds rest idx none =
        (specSelect ds rest).map (fun t => (idx + t.1, t.2.1, t.2.2)) := by
  intro rest
  induction rest with
  | nil => intro idx; simp [selectBestGo, specSelect]
  | cons m rest ih =>
    intro idx
    by_cases hr : rmatch m.regex (renderMask m ds) = true
    · simp only [selectBestGo, specSelect]
      rw [if_pos hr, if_pos hr, selectBestGo_acc]
      cases hs : specSelect ds rest with
      | none => simp [hs]
      | some t =>
        obtain ⟨i, d, f⟩ := t
        by_cases hdd : natAbsDiff m.digitCount ds.length ≤ d
        · have hnd : ¬ d < natAbsDiff m.digitCount ds.length := by omega
          simp [hdd, hnd]
        · have hlt : d < natAbsDiff m.digitCount ds.length := by omega
          have e : idx + (i + 1) = idx + 1 + i := by omega
          simp [hdd, hlt, e]
    · simp only [selectBestGo, specSelect]
      rw [if_neg hr, if_neg hr, ih]
      cases hs : specSelect ds rest with
      | none => simp
      | some t =>
        obtain ⟨i, d, f⟩ := t
        have e : idx + (i + 1) = idx + 1 + i := by omega
        simp [e]

/-- When every candidate matches its own render, `specSelect` returns
the first candidate whose diff is minimal. -/
theorem specSelect_spec (ds : List Char) :
    ∀ (cands : List MaskData),
      (∀ m ∈ cands, rmatch m.regex (renderMask m ds) = true) →
      cands ≠ [] →
      ∃ i m, cands.get? i = some m ∧
        specSelect ds cands =
          some (i, natAbsDiff m.digitCount ds.length, renderMask m ds) ∧
        (∀ j mj, cands.get? j = some mj →
          natAbsDiff m.digitCount ds.length ≤
            natAbsDiff mj.digitCount ds.length) ∧
        (∀ j mj, j < i → cands.get? j = some mj →
          natAbsDiff m.digitCount ds.length <
            natAbsDiff mj.digitCount ds.length) := by
  intro cands
  induction cands with
  | nil => intro _ hne; exact absurd rfl hne
  | cons m rest ih =>
    intro hall _
    have hm : rmatch m.regex (renderMask m ds) = true :=
      hall m (List.mem_cons_self m rest)
    by_cases hr : rest = []
    · subst hr
      refine ⟨0, m, rfl, ?_, ?_, ?_⟩
      · simp [specSelect, hm]
      · intro j mj hj
        cases j with
        | zero => simp only [List.get?] at hj; injection hj with hj; rw [hj]
        | succ k => simp [List.get?] at hj
      · intro j mj hj; omega
    · obtain ⟨i, mi, hget, heq, hmin, hstrict⟩ :=
        ih (fun x hx => hall x (List.mem_cons_of_mem m hx)) hr
      by_cases hdd : natAbsDiff m.digitCount ds.length ≤
          natAbsDiff mi.digitCount ds.length
      · refine ⟨0, m, rfl, ?_, ?_, ?_⟩
        · simp only [specSelect]
          rw [if_pos hm, heq]
          simp [hdd]
        · intro j mj hj
          cases j with
          | zero => simp only [List.get?] at hj; injection hj with hj; rw [hj]
          | succ k =>
            simp only [List.get?] at hj
            exact Nat.le_trans hdd (hmin k mj hj)
        · intro j mj hj; omega
      · have hlt : natAbsDiff mi.digitCount ds.length <
            natAbsDiff m.digitCount ds.length := by omega
        refine ⟨i + 1, mi, by simpa [List.get?] using hget, ?_, ?_, ?_⟩
        · simp only [specSelect]
          rw [if_pos hm, heq]
          simp [hdd]
        · intro j mj hj
          cases j with
          | zero =>
            simp only [List.get?] at hj
            injection hj with hj
            rw [hj] at hlt
            exact Nat.le_of_lt hlt
          | succ k =>
            simp only [List.get?] at hj
            exact hmin k mj hj
        · intro j mj hjlt hj
          cases j with
          | zero =>
            simp only [List.get?] at hj
            injection hj with hj
            rw [hj] at hlt
            exact hlt
          | succ k =>
            simp only [List.get?] at hj
            exact hstrict k mj (by omega) hj

/-! ## Claim theorems -/

/-- Claim C1, counterexample: for the template `"(##) #####-####"` and
the one-digit sequence `"1"`, the rendering loop produces `"(1) -"`,
which is not a prefix of the template at all (in particular not the
prefix ending at the first unfilled placeholder, position 2): the walk
does not terminate when the digits run out. -/
theorem c1_render_not_a_template_front :
    renderMask (parseMask maskBR11) (("1").toList) = ("(1) -").toList ∧
    renderMask (parseMask maskBR11) (("1").toList) ≠
      maskBR11.take (renderMask (parseMask maskBR11) (("1").toList)).length ∧
    renderMask (parseMask maskBR11) (("1").toList) ≠ maskBR11.take 2 := by
  refine ⟨by decide, by decide, by decide⟩

/-- Claim C1 as amended: when `len(D) < digitCount`, the walk does not
stop at the first unfilled placeholder; it appends the empty string for
every exhausted placeholder and keeps appending the remaining literals,
so the render equals the structural fill (`fillTemplate`: first
`len(D)` placeholders replaced by the digits in order, every remaining
placeholder dropped, every literal kept) and has length
`litCount + len(D)`. -/
theorem c1_render_continues (mask ds : List Char)
    (h : ds.length < (parseMask mask).digitCount) :
    renderMask (parseMask mask) ds = fillTemplate mask ds ∧
    (renderMask (parseMask mask) ds).length = litCount mask + ds.length := by
  refine ⟨renderMask_parseMask mask ds, ?_⟩
  rw [renderMask_parseMask mask ds, fillTemplate_length mask ds]
  have hdc : (parseMask mask).digitCount = countPlaceholders mask := rfl
  rw [hdc] at h
  omega

/-- Witness for `c1_render_continues` at the repository's default
template and a single digit. -/
theorem c1_render_continues_witness :
    renderMask (parseMask maskBR11) (("1").toList) =
      fillTemplate maskBR11 (("1").toList) ∧
    (renderMask (parseMask maskBR11) (("1").toList)).length =
      litCount maskBR11 + (("1").toList).length :=
  c1_render_continues maskBR11 (("1").toList) (by decide)

/-- Every render of a parsed mask against a digit-only sequence
matches the mask's own regex (shared helper). -/
theorem renderMask_matches_self (mask ds : List Char)
    (hds : ∀ c ∈ ds, c.isDigit = true) :
    rmatch (parseMask mask).regex
      (renderMask (parseMask mask) ds) = true := by
  rw [renderMask_parseMask mask ds]
  exact rmatch_fillTemplate mask ds hds

/-- Claim C2, counterexample: for the template `"(##) #####-####"`
(digit count 11) and the ten-digit sequence `"1199999999"`, the render
is the truncated `"(11) 99999-999"` and it does match the template's
own matcher, although `len(D) = 10 < 11 = digitCount`: a partial render
can match, so eligibility is not equivalent to
`len(D) >= digitCount`. -/
theorem c2_partial_render_matches :
    renderMask (parseMask maskBR11) (("1199999999").toList) =
      ("(11) 99999-999").toList ∧
    rmatch (parseMask maskBR11).regex
      (renderMask (parseMask maskBR11) (("1199999999").toList)) = true ∧
    (("1199999999").toList).length < (parseMask maskBR11).digitCount := by
  refine ⟨by decide, by decide, by decide⟩

/-- Claim C2 as amended: the rendered string of a parsed template
against any digit sequence always matches the template's own matcher
(every literal is present and every placeholder carries a digit or is
skipped), so every candidate is always eligible, whatever
`len(D)`. -/
theorem c2_render_always_matches (mask ds : List Char)
    (hds : ∀ c ∈ ds, c.isDigit = true) :
    rmatch (parseMask mask).regex
      (renderMask (parseMask mask) ds) = true :=
  renderMask_matches_self mask ds hds

/-- Witness for `c2_render_always_matches`. -/
theorem c2_render_always_matches_witness :
    rmatch (parseMask maskBR11).regex
      (renderMask (parseMask maskBR11) (("1199999999").toList)) = true :=
  c2_render_always_matches maskBR11 (("1199999999").toList) (by decide)

/-- Claim C3: with a non-empty candidate list, the selection loop of
`handleInput` returns the first candidate minimizing
`abs(digitCount - len(digits))` (all candidates are eligible because a
render always matches its own matcher), and on the repository's two
Brazilian templates the 11-digit input picks the first template and
the 10-digit input the second, with the documented renders. -/
theorem c3_selection_minimizes_diff (masks : List (List Char))
    (value : List Char) (hne : masks ≠ []) :
    (∃ i m, (masks.map parseMask).get? i = some m ∧
      selectBestGo (value.filter Char.isDigit) (masks.map parseMask) 0 none =
        some (i,
          natAbsDiff m.digitCount (value.filter Char.isDigit).length,
          renderMask m (value.filter Char.isDigit)) ∧
      (∀ j mj, (masks.map parseMask).get? j = some mj →
        natAbsDiff m.digitCount (value.filter Char.isDigit).length ≤
          natAbsDiff mj.digitCount (value.filter Char.isDigit).length) ∧
      (∀ j mj, j < i → (masks.map parseMask).get? j = some mj →
        natAbsDiff m.digitCount (value.filter Char.isDigit).length <
          natAbsDiff mj.digitCount (value.filter Char.isDigit).length)) ∧
    handleInputValue ([maskBR11, maskBR10].map parseMask)
      (("11999999999").toList) = (0, ("(11) 99999-9999").toList) ∧
    handleInputValue ([maskBR11, maskBR10].map parseMask)
      (("1199999999").toList) = (1, ("(11) 9999-9999").toList) := by
  refine ⟨?_, by decide, by decide⟩
  have hall : ∀ m ∈ masks.map parseMask,
      rmatch m.regex (renderMask m (value.filter Char.isDigit)) = true := by
    intro m hm
    obtain ⟨mask, _, rfl⟩ := List.mem_map.mp hm
    have hds : ∀ c ∈ value.filter Char.isDigit, c.isDigit = true := by
      intro c hc
      exact (List.mem_filter.mp hc).2
    exact renderMask_matches_self mask (value.filter Char.isDigit) hds
  have hne2 : masks.map parseMask ≠ [] := by
    intro h
    exact hne (List.map_eq_nil_iff.mp h)
  obtain ⟨i, m, hget, heq, hmin, hstrict⟩ :=
    specSelect_spec (value.filter Char.isDigit) (masks.map parseMask)
      hall hne2
  refine ⟨i, m, hget, ?_, hmin, hstrict⟩
  rw [selectBestGo_none, heq]
  simp

/-- Witness for `c3_selection_minimizes_diff`: the two documented
selections, obtained from the theorem at the concrete candidate list. -/
theorem c3_selection_minimizes_diff_witness :
    handleInputValue ([maskBR11, maskBR10].map parseMask)
      (("11999999999").toList) = (0, ("(11) 99999-9999").toList) ∧
    handleInputValue ([maskBR11, maskBR10].map parseMask)
      (("1199999999").toList) = (1, ("(11) 9999-9999").toList) :=
  ⟨(c3_selection_minimizes_diff [maskBR11, maskBR10] (("11999999999").toList)
      (by decide)).2.1,
   (c3_selection_minimizes_diff [maskBR11, maskBR10] (("1199999999").toList)
      (by decide)).2.2⟩

/-- Claim C4: composing the two cursor maps of an active template is
the clamp `min k digitCount`: `setCursorPositionInFormatted` stops at
the `k`-th placeholder (or the template's end) and
`getCursorPosInUnmaskedValue` counts the placeholders before that
position. -/
theorem c4_cursor_round_trip (mask : List Char) (k : Nat) :
    getCursorPosInUnmaskedValue mask (setCursorPositionInFormatted mask k) =
      min k (parseMask mask).digitCount := by
  rw [setCursorPositionInFormatted_eq]
  exact ucp_fcpLoop mask k

/-- Claim C5, counterexample: the matcher built for
`"(##) #####-####"` (length 15) accepts the 4-character literal
skeleton `"() -"`, because every `(\d?)` group may match the empty
string; the matcher does not accept only strings of the template's
length. -/
theorem c5_matcher_accepts_shorter :
    rmatch (parseMask maskBR11).regex (("() -").toList) = true ∧
    (("() -").toList).length = 4 ∧
    maskBR11.length = 15 := by
  refine ⟨by decide, by decide, by decide⟩

/-- Claim C5 as amended: the matcher accepts only strings whose length
lies between the template's literal count and the template's length
(each placeholder contributes zero or one digit), and a string of
exactly the template's length is accepted iff positionally every
literal position equals the template's literal and every placeholder
position holds a digit. -/
theorem c5_matcher_bounds (mask s : List Char) :
    (rmatch (parseMask mask).regex s = true →
      litCount mask ≤ s.length ∧ s.length ≤ mask.length) ∧
    (s.length = mask.length →
      (rmatch (parseMask mask).regex s = true ↔
        fullMatchSpec mask s = true)) := by
  constructor
  · intro h
    exact ⟨rmatch_length_ge mask s h, rmatch_length_le_mask mask s h⟩
  · intro hlen
    exact rmatch_full_iff mask s hlen

/-- Witness for `c5_matcher_bounds` at the default template, both for a
short accepted string and for a full-length one. -/
theorem c5_matcher_bounds_witness :
    (litCount maskBR11 ≤ (("() -").toList).length ∧
      (("() -").toList).length ≤ maskBR11.length) ∧
    fullMatchSpec maskBR11 (("(11) 99999-9999").toList) = true :=
  ⟨(c5_matcher_bounds maskBR11 (("() -").toList)).1 (by decide),
   ((c5_matcher_bounds maskBR11 (("(11) 99999-9999").toList)).2
      (by decide)).mp (by decide)⟩

/-- Claim C6, counterexample: running the `handleInput` pass on an
empty value with the default candidate list does not yield "no active
template": every placeholder of the skeleton render is optional, so the
literal skeleton `"() -"` matches, the first candidate becomes active
(index 0, not -1) and the displayed string is the non-empty
skeleton. -/
theorem c6_empty_digits_select_skeleton :
    handleInputValue ([maskBR11].map parseMask) [] =
      (0, ("() -").toList) ∧
    (handleInputValue ([maskBR11].map parseMask) []).1 ≠ -1 ∧
    (handleInputValue ([maskBR11].map parseMask) []).2 ≠ [] := by
  refine ⟨by decide, by decide, by decide⟩

/-- Claim C6 as amended: only `setValue` with `null`/`undefined` or the
empty string clears the field and sets the active template to the
"none" sentinel; the render-and-select pass (`handleInput`, and
`setValue` with a non-empty value) applied to an empty digit sequence
instead activates the best-fitting candidate and displays its literal
skeleton. -/
theorem c6_setValue_empty_clears :
    (∀ list : List MaskData,
      setValueResult list none = (-1, []) ∧
      setValueResult list (some []) = (-1, [])) ∧
    handleInputValue ([maskBR11].map parseMask) [] =
      (0, ("() -").toList) := by
  exact ⟨fun list => ⟨rfl, rfl⟩, by decide⟩

/-- Claim C7: with an active template and no selection, backspace does
not delete the character at the cursor: it seeks backward from
`start - 1` to the nearest placeholder position `p` of the template
(skipping every literal in between), removes the unmasked digit bound
to that placeholder — the one at offset `charIndex(p)`, the number of
placeholders before `p`, exactly the pairing recorded in the
`placeholders` table — and moves the cursor there; literals are never
removed from the digit sequence. -/
theorem c7_backspace_deletes_bound_digit (mask : List Char) (start : Nat)
    (u : List Char) (p : Nat) (h1 : 1 ≤ start)
    (hp : seekPrevPh mask (start - 1) = some p) :
    mask.get? p = some '#' ∧ p < start ∧
    (∀ q, p < q → q < start → mask.get? q ≠ some '#') ∧
    (handleKeyDownBackspace (parseMask mask) start u).1 =
      u.take (getCursorPosInUnmaskedValue mask p) ++
        u.drop (getCursorPosInUnmaskedValue mask p + 1) ∧
    (handleKeyDownBackspace (parseMask mask) start u).2 =
      getCursorPosInUnmaskedValue mask p ∧
    (p, getCursorPosInUnmaskedValue mask p) ∈ (parseMask mask).placeholders := by
  cases start with
  | zero => omega
  | succ s =>
    have hp' : seekPrevPh mask s = some p := by simpa using hp
    obtain ⟨hph, hle, hnone⟩ := seekPrevPh_spec mask s p hp'
    have hmm : (parseMask mask).mask = mask := rfl
    refine ⟨hph, by omega, ?_, ?_, ?_, ?_⟩
    · intro q hq1 hq2
      exact hnone q hq1 (by omega)
    · simp only [handleKeyDownBackspace, hmm, hp']
    · simp only [handleKeyDownBackspace, hmm, hp']
    · have := placeholdersGo_mem mask p 0 0 hph
      simpa [parseMask] using this

/-- Witness for `c7_backspace_deletes_bound_digit`: template
`"(##) #####-####"`, digits `"11999999999"`, cursor at formatted
position 5 (right after the literal space): the seek lands on the
placeholder at mask index 2, whose bound digit is unmasked offset 1,
and the digit sequence becomes `"1999999999"`. -/
theorem c7_backspace_witness :
    maskBR11.get? 2 = some '#' ∧
    (2, 1) ∈ (parseMask maskBR11).placeholders ∧
    (handleKeyDownBackspace (parseMask maskBR11) 5
      (("11999999999").toList)).1 = ("1999999999").toList ∧
    (handleKeyDownBackspace (parseMask maskBR11) 5
      (("11999999999").toList)).2 = 1 := by
  have h := c7_backspace_deletes_bound_digit maskBR11 5
    (("11999999999").toList) 2 (by decide) (by decide)
  have e : getCursorPosInUnmaskedValue maskBR11 2 = 1 := by decide
  refine ⟨h.1, ?_, ?_, ?_⟩
  · have hm := h.2.2.2.2.2
    rw [e] at hm
    exact hm
  · rw [h.2.2.2.1]
    decide
  · rw [h.2.2.2.2.1]
    exact e

/-- Claim C8, counterexample: the parenthesized digit counts of the
claim are wrong for its own example: the template `"(##) #####-####"`
has `digitCount` 11 (not 9), and the display `"(11) 9999-9999"`
carries 10 digits (not 8). -/
theorem c8_wrong_digit_counts :
    (parseMask maskBR11).digitCount = 11 ∧
    ¬ (parseMask maskBR11).digitCount = 9 ∧
    ((("(11) 9999-9999").toList).filter Char.isDigit).length = 10 := by
  refine ⟨by decide, by decide, by decide⟩

/-- Claim C8 as amended: with an active template, `validateInput`
passes iff the display matches the template's matcher and the unmasked
digit count equals the template's `digitCount`; the display
`"(11) 9999-9999"` fails against `"(##) #####-####"` although it
matches the matcher, because its 10 digits differ from the template's
`digitCount` 11. -/
theorem c8_validate_pass_iff (m : MaskData) (v : List Char) :
    (validateInputResult m v = true ↔
      (rmatch m.regex v = true ∧
        (v.filter Char.isDigit).length = m.digitCount)) ∧
    validateInputResult (parseMask maskBR11)
      (("(11) 9999-9999").toList) = false ∧
    rmatch (parseMask maskBR11).regex (("(11) 9999-9999").toList) = true ∧
    ((("(11) 9999-9999").toList).filter Char.isDigit).length = 10 ∧
    (parseMask maskBR11).digitCount = 11 := by
  refine ⟨?_, by decide, by decide, by decide, by decide⟩
  simp [validateInputResult, Bool.and_eq_true, beq_iff_eq]

/-- Claim C9, counterexample: the `MoneyMask` constructor does not
throw on an invalid or missing target; it silently returns
("If neither a string nor an element, ignore" / "If no element is
found, ignore"), so "both mask classes throw synchronously" is
false. -/
theorem c9_money_ctor_does_not_throw :
    moneyCtorOutcome CtorArg.invalid = CtorOutcome.ignoredSilently ∧
    ¬ moneyCtorOutcome CtorArg.invalid = CtorOutcome.threw ∧
    moneyCtorOutcome CtorArg.selectorMissing = CtorOutcome.ignoredSilently := by
  refine ⟨rfl, by decide, rfl⟩

/-- Claim C9 as amended: only `PhoneNumberMask` reports construction
misuse by throwing synchronously; `MoneyMask` silently ignores the bad
target.  The engine itself raises no fault: with no candidate at all,
the render-and-select pass degrades to "no active template" and the
bare digit string. -/
theorem c9_ctor_failure_modes :
    phoneCtorOutcome CtorArg.invalid = CtorOutcome.threw ∧
    phoneCtorOutcome CtorArg.selectorMissing = CtorOutcome.threw ∧
    phoneCtorOutcome CtorArg.selectorFound = CtorOutcome.initialized ∧
    phoneCtorOutcome CtorArg.htmlElement = CtorOutcome.initialized ∧
    moneyCtorOutcome CtorArg.invalid = CtorOutcome.ignoredSilently ∧
    moneyCtorOutcome CtorArg.selectorMissing = CtorOutcome.ignoredSilently ∧
    (∀ v : List Char, handleInputValue [] v = (-1, v.filter Char.isDigit)) := by
  refine ⟨rfl, rfl, rfl, rfl, rfl, rfl, fun v => rfl⟩

/-- Claim C10 (implicit, confirmed): for every parsed template and any
digit sequence — empty, partial or surplus — the rendering loop's
output matches the template's own matcher; hence with a non-empty
candidate list the best-match selection always finds a matching
candidate and `handleInput` always sets an active template
(index different from -1). -/
theorem c10_selection_always_succeeds (masks : List (List Char))
    (value : List Char) (hne : masks ≠ []) :
    (∀ mask ∈ masks,
      rmatch (parseMask mask).regex
        (renderMask (parseMask mask) (value.filter Char.isDigit)) = true) ∧
    (handleInputValue (masks.map parseMask) value).1 ≠ -1 := by
  have hds : ∀ c ∈ value.filter Char.isDigit, c.isDigit = true := by
    intro c hc
    exact (List.mem_filter.mp hc).2
  have hall : ∀ m ∈ masks.map parseMask,
      rmatch m.regex (renderMask m (value.filter Char.isDigit)) = true := by
    intro m hm
    obtain ⟨mask, _, rfl⟩ := List.mem_map.mp hm
    exact renderMask_matches_self mask (value.filter Char.isDigit) hds
  refine ⟨?_, ?_⟩
  · intro mask _
    exact renderMask_matches_self mask (value.filter Char.isDigit) hds
  · have hne2 : masks.map parseMask ≠ [] := by
      intro h
      exact hne (List.map_eq_nil_iff.mp h)
    obtain ⟨i, m, hget, heq, _, _⟩ :=
      specSelect_spec (value.filter Char.isDigit) (masks.map parseMask)
        hall hne2
    have hsel : selectBestGo (value.filter Char.isDigit)
        (masks.map parseMask) 0 none =
        some (i, natAbsDiff m.digitCount (value.filter Char.isDigit).length,
          renderMask m (value.filter Char.isDigit)) := by
      rw [selectBestGo_none, heq]
      simp
    simp only [handleInputValue, hsel, hget]
    by_cases hb : rmatch m.regex
        (renderMask m (value.filter Char.isDigit)) = true
    · simp [hb]
    · simp [hb]

/-- Witness for `c10_selection_always_succeeds`. -/
theorem c10_selection_always_succeeds_witness :
    (handleInputValue ([maskBR11].map parseMask)
      (("11999999999").toList)).1 ≠ -1 :=
  (c10_selection_always_succeeds [maskBR11] (("11999999999").toList)
    (by decide)).2
